import Mathlib

/-!
Shallow embedding of the Wizard card-game engine (`ml/wizard_env.py`) and
verification of the frozen specification claims against it.

Conventions of the embedding:
* Python machine integers are modelled as `Nat` (all quantities involved are
  small and non-negative) except where a subtraction can go negative in the
  source, where `Int` is used exactly as Python's unbounded ints behave.
* The two RNG streams of the source are modelled explicitly:
  - `random.shuffle` (the process-global `random` module, NOT seeded by
    `reset(seed)`) is modelled by passing the shuffled deck as an argument;
  - `self.np_random` (seeded by `reset(seed=...)` via gymnasium) is modelled
    as a consumable stream `List Nat`; `np_random.choice(xs)` takes element
    `head % xs.length` and consumes one stream element.
* Raising `ValueError` is modelled by `Except String`.
-/

set_option maxRecDepth 100000

namespace WizardEnv

/-- NUM_PLAYERS constant of `WizardEnv.__init__`. -/
def NUM_PLAYERS : Nat := 4

/-- DECK_SIZE constant of `WizardEnv.__init__`. -/
def DECK_SIZE : Nat := 60

/-- NUM_SUITS constant of `WizardEnv.__init__`. -/
def NUM_SUITS : Nat := 4

/-- MAX_ROUND constant: `DECK_SIZE // NUM_PLAYERS = 15`. -/
def MAX_ROUND : Nat := DECK_SIZE / NUM_PLAYERS

/-- CardValue.JESTER.value in the source enum. -/
def JESTER : Nat := 0

/-- CardValue.WIZARD.value in the source enum. -/
def WIZARD : Nat := 14

/-- Card of the source: `value` is the `CardValue` enum value (0 = Jester,
1..13 numeric, 14 = Wizard) and `suit` is the `CardSuit` enum value (0..3). -/
structure Card where
  value : Nat
  suit : Nat
deriving DecidableEq, Repr, Inhabited

/-- Index of the single `1` entry written by `Card.to_vector`:
Wizards at `52 + suit`, Jesters at `56 + suit`, regular cards at
`suit * 13 + (value - 1)`. -/
def toVectorIdx (c : Card) : Nat :=
  if c.value = WIZARD then 52 + c.suit
  else if c.value = JESTER then 56 + c.suit
  else c.suit * 13 + (c.value - 1)

/-- One-hot vector produced by `Card.to_vector(60)`. -/
def toVector (c : Card) : List Nat :=
  (List.range DECK_SIZE).map (fun i => if i = toVectorIdx c then 1 else 0)

/-- Card.from_vector_idx: indices below 52 decode to regular cards,
52..55 to Wizards, 56..59 to Jesters.  (For an index `>= 60` the Python
`CardSuit(...)` constructor raises; callers guard that case.) -/
def fromVectorIdx (vector_idx : Nat) : Card :=
  if vector_idx < 52 then ⟨vector_idx % 13 + 1, vector_idx / 13⟩
  else if vector_idx < 56 then ⟨WIZARD, vector_idx - 52⟩
  else ⟨JESTER, vector_idx - 56⟩

/-- WizardEnv._create_deck: for each suit the 13 numeric cards, then a
Wizard and a Jester of that suit. -/
def createDeck : List Card :=
  ([0, 1, 2, 3].map (fun s =>
    ((List.range 13).map (fun v => (⟨v + 1, s⟩ : Card))) ++ [⟨WIZARD, s⟩, ⟨JESTER, s⟩])).flatten

/-- Value stored in `state["lead_suit"]`.  The source stores either an `int`
(`card.suit.value` or the sentinel `NUM_SUITS`, written by `_process_play`,
`_finish_trick` and `reset`) or — due to the unconverted assignment in
`_simulate_play` — a `CardSuit` enum member; the two are never equal under
Python `==`, so the embedding keeps them as distinct constructors. -/
inductive LeadVal where
  | num : Nat → LeadVal
  | suitEnum : Nat → LeadVal
deriving DecidableEq, Repr, Inhabited

/-- Python truth of `state["lead_suit"] == self.NUM_SUITS`: an enum member
never equals the int 4. -/
def leadUnset : LeadVal → Bool
  | .num n => n == NUM_SUITS
  | .suitEnum _ => false

/-- Game state of the environment.  `deck_rest` models the remainder of the
local `deck` list of `_deal_cards` after dealing and drawing trump (implicit
in the source, needed to state the deck-partition invariant).
`played_round` is the support of the `cards_played_in_round` vector. -/
structure GameState where
  round_number : Nat
  phase : Nat
  round_starter : Nat
  trick_leader : Nat
  hands : List (List Card)
  trump_card : Option Card
  deck_rest : List Card
  cards_played_in_trick : List Card
  played_round : List Card
  player_bids : List Nat
  player_tricks : List Nat
  player_scores : List Int
  lead_suit : LeadVal
  position_in_trick : Nat
deriving DecidableEq, Repr, Inhabited

/-- WizardEnv._get_valid_bids: all bids `0..round_number`; if
`np.count_nonzero(player_bids) == NUM_PLAYERS - 1` the value
`round_number - sum(player_bids)` is removed when it lies in range. -/
def getValidBids (round_number : Nat) (player_bids : List Nat) : List Nat :=
  let valid_bids := List.range (round_number + 1)
  let num_bids := (player_bids.filter (fun b => b ≠ 0)).length
  if num_bids = NUM_PLAYERS - 1 then
    let total_bids : Int := (player_bids.sum : Int)
    let forbidden_bid : Int := (round_number : Int) - total_bids
    if 0 ≤ forbidden_bid ∧ forbidden_bid ≤ (round_number : Int) then
      valid_bids.erase forbidden_bid.toNat
    else valid_bids
  else valid_bids

/-- WizardEnv._is_valid_play, for a given hand and current trick. -/
def isValidPlay (card : Card) (hand : List Card) (trick : List Card) : Bool :=
  if ¬ hand.contains card then false
  else if trick.length = 0 then true
  else if card.value = WIZARD ∨ card.value = JESTER then true
  else
    match (trick.find? (fun c => c.value ≠ JESTER ∧ c.value ≠ WIZARD)).map Card.suit with
    | none => true
    | some lead_suit =>
      if hand.any (fun c => c.suit = lead_suit) then card.suit == lead_suit
      else true

/-- Loop of `WizardEnv._vector_idx_to_hand_idx`: index of the first hand card
whose suit and value both match the target. -/
def findCardIdx (target : Card) : List Card → Option Nat
  | [] => none
  | c :: rest =>
    if c.suit = target.suit ∧ c.value = target.value then some 0
    else (findCardIdx target rest).map (· + 1)

/-- WizardEnv._vector_idx_to_hand_idx (agent hand = hands[0]). -/
def vectorIdxToHandIdx (hand : List Card) (vector_idx : Nat) : Option Nat :=
  findCardIdx (fromVectorIdx vector_idx) hand

/-- WizardEnv._process_bid: raises unless the bid is in `_get_valid_bids`,
then stores it in slot 0. -/
def processBid (s : GameState) (bid : Nat) : Except String GameState :=
  if bid ∈ getValidBids s.round_number s.player_bids then
    .ok { s with player_bids := s.player_bids.set 0 bid }
  else .error "Invalid bid"

/-- WizardEnv._process_play: phase check, decode the action index, locate the
card in hands[0] (raising when absent), pop it, append it to the trick and
round piles, and set the lead suit only when this is the trick's first card.
An action index `>= 60` makes the Python `CardSuit` constructor raise inside
`from_vector_idx`. -/
def processPlay (s : GameState) (action : Nat) : Except String GameState :=
  if s.phase ≠ 1 then .error "Cannot play card during bidding phase"
  else if DECK_SIZE ≤ action then .error "not a valid CardSuit"
  else
    match vectorIdxToHandIdx (s.hands.getD 0 []) action with
    | none => .error "Invalid card vector index"
    | some hand_idx =>
      let hand := s.hands.getD 0 []
      let card := hand.getD hand_idx default
      let trick := s.cards_played_in_trick ++ [card]
      let s' : GameState :=
        { s with hands := s.hands.set 0 (hand.eraseIdx hand_idx),
                 cards_played_in_trick := trick,
                 played_round := s.played_round ++ [card] }
      if trick.length = 1 then
        .ok { s' with lead_suit :=
          (if card.value ≠ WIZARD ∧ card.value ≠ JESTER then .num card.suit
           else .num NUM_SUITS) }
      else .ok s'

/-- Card picked by `np_random.choice(valid_cards)` in `_simulate_play`,
modelled as indexing by the head of the RNG stream. -/
def simChoice (s : GameState) (σ : List Nat) (player_idx : Nat) : Card :=
  let hand := s.hands.getD player_idx []
  let valid_cards := hand.filter (fun c => isValidPlay c hand s.cards_played_in_trick)
  valid_cards.getD (σ.headD 0 % valid_cards.length) default

/-- WizardEnv._simulate_play: pick a uniformly random card among the valid
ones (no-op if none), update the lead suit — the source assigns the
`CardSuit` enum member here, not its int value — and move the card from the
hand to the trick and round piles. -/
def simulatePlay (s : GameState) (σ : List Nat) (player_idx : Nat) :
    GameState × List Nat :=
  let hand := s.hands.getD player_idx []
  let valid_cards := hand.filter (fun c => isValidPlay c hand s.cards_played_in_trick)
  if valid_cards.isEmpty then (s, σ)
  else
    let card := simChoice s σ player_idx
    let s1 :=
      if leadUnset s.lead_suit ∧ card.value ≠ WIZARD ∧ card.value ≠ JESTER then
        { s with lead_suit := .suitEnum card.suit }
      else s
    ({ s1 with hands := s1.hands.set player_idx (hand.erase card),
               cards_played_in_trick := s1.cards_played_in_trick ++ [card],
               played_round := s1.played_round ++ [card] }, σ.tail)

/-- Trick as the list of `(card, player)` pairs built at the top of
`_evaluate_trick`. -/
def trickPairs (trick_leader : Nat) (cards : List Card) : List (Card × Nat) :=
  cards.enum.map (fun p => (p.2, (trick_leader + p.1) % NUM_PLAYERS))

/-- Body of the comparison loop of `_evaluate_trick`: Jesters are skipped,
a trump card beats a non-trump winner, otherwise a same-suit card with a
strictly higher value wins. -/
def trickStep (trump_card : Option Card) (w p : Card × Nat) : Card × Nat :=
  if p.1.value = JESTER then w
  else if (match trump_card with
           | some t => p.1.suit == t.suit && w.1.suit != t.suit
           | none => false) then p
  else if p.1.suit = w.1.suit ∧ w.1.value < p.1.value then p
  else w

/-- WizardEnv._evaluate_trick: last Wizard wins; all-Jester tricks go to the
trick leader; otherwise fold the comparison loop over all pairs starting from
the first non-Jester card. -/
def evaluateTrick (trick_leader : Nat) (cards : List Card)
    (trump_card : Option Card) : Nat :=
  match (trickPairs trick_leader cards).reverse.find? (fun p => p.1.value == WIZARD) with
  | some p => p.2
  | none =>
    if (trickPairs trick_leader cards).all (fun p => p.1.value == JESTER) then
      trick_leader
    else
      ((trickPairs trick_leader cards).foldl (trickStep trump_card)
        (((trickPairs trick_leader cards).find?
          (fun p => p.1.value != JESTER)).getD default)).2

/-- One execution of `if deck: hands[player].append(deck.pop())` in
`_deal_cards` (Python `pop()` takes the last element). -/
def popToPlayer (acc : List Card × List (List Card)) (player : Nat) :
    List Card × List (List Card) :=
  match acc.1.getLast? with
  | none => acc
  | some c => (acc.1.dropLast, acc.2.set player ((acc.2.getD player []) ++ [c]))

/-- Inner player loop of `_deal_cards`. -/
def dealRound (acc : List Card × List (List Card)) : List Card × List (List Card) :=
  (List.range NUM_PLAYERS).foldl popToPlayer acc

/-- Trump draw at the end of `_deal_cards`:
`self.trump_card = deck.pop() if deck else None`, keeping the rest. -/
def dealFinish (s : GameState) (acc : List Card × List (List Card)) : GameState :=
  match acc.1.getLast? with
  | none => { s with hands := acc.2, trump_card := none, deck_rest := acc.1 }
  | some c => { s with hands := acc.2, trump_card := some c, deck_rest := acc.1.dropLast }

/-- WizardEnv._deal_cards, with the output of `random.shuffle` (drawn from
the process-global `random` module, independent of the env seed) passed in as
`shuffled`.  Clears the hands, deals `round_number` cards round-robin, then
draws the trump card if any card remains.  The remaining deck (a local
variable discarded by the source) is kept as `deck_rest`. -/
def dealCards (s : GameState) (shuffled : List Card) : GameState :=
  dealFinish s ((List.range s.round_number).foldl (fun a _ => dealRound a)
    (shuffled, List.replicate NUM_PLAYERS ([] : List Card)))

/-- WizardEnv.reset.  `round_starter` is an instance attribute the source
does NOT reinitialize in `reset`, so it is a parameter (0 at construction
time, otherwise whatever the previous game left).  `seed` only seeds
`self.np_random` via `super().reset(seed=seed)`; nothing in `reset` draws
from that stream, and the deck shuffle comes from the global `random`
module, so the dealt cards are independent of `seed`. -/
def resetEnv (round_starter : Nat) (seed : Nat) (shuffled : List Card) : GameState :=
  let _ := seed
  let s : GameState :=
    { round_number := 1, phase := 0, round_starter := round_starter,
      trick_leader := round_starter, hands := List.replicate NUM_PLAYERS [],
      trump_card := none, deck_rest := [], cards_played_in_trick := [],
      played_round := [], player_bids := List.replicate NUM_PLAYERS 0,
      player_tricks := List.replicate NUM_PLAYERS 0,
      player_scores := List.replicate NUM_PLAYERS 0,
      lead_suit := .num NUM_SUITS, position_in_trick := 0 }
  dealCards s shuffled

/-- WizardEnv._get_next_player. -/
def getNextPlayer (current_player : Nat) : Nat := (current_player + 1) % NUM_PLAYERS

/-- Simulation loop `while current_player != 0` of `_play_until_agent_turn`
(playing phase).  The counter advances mod 4, so 4 units of fuel always
suffice to reach the exit condition of the Python `while` loop. -/
def simulateFrom (s : GameState) (σ : List Nat) (current : Nat) :
    Nat → GameState × List Nat
  | 0 => (s, σ)
  | fuel + 1 =>
    if current = 0 then (s, σ)
    else
      simulateFrom (simulatePlay s σ current).1 (simulatePlay s σ current).2
        (getNextPlayer current) fuel

/-- Simulation loop `while current_player != self.trick_leader` of
`step` (playing branch); `target` is the trick leader, fixed for the loop. -/
def simulateUntilLeader (s : GameState) (σ : List Nat) (current target : Nat) :
    Nat → GameState × List Nat
  | 0 => (s, σ)
  | fuel + 1 =>
    if current = target then (s, σ)
    else
      simulateUntilLeader (simulatePlay s σ current).1 (simulatePlay s σ current).2
        (getNextPlayer current) target fuel

/-- Bids drawn by the pre-agent loop of `_play_until_agent_turn`: the plain
range with NO hook-rule filtering. -/
def preAgentBidCandidates (round_number : Nat) : List Nat :=
  List.range (round_number + 1)

/-- WizardEnv._play_until_agent_turn.  In the bidding phase, when the agent
is not the round starter, seats `round_starter..3` each draw a uniformly
random bid from the full range; in the playing phase, seats are simulated
from the trick leader until the agent's seat comes up. -/
def playUntilAgentTurn (s : GameState) (σ : List Nat) : GameState × List Nat :=
  if s.phase = 0 then
    if s.round_starter ≠ 0 then
      (List.range' s.round_starter (NUM_PLAYERS - s.round_starter)).foldl
        (fun (acc : GameState × List Nat) i =>
          let valid_bids := preAgentBidCandidates acc.1.round_number
          let bid := valid_bids.getD (acc.2.headD 0 % valid_bids.length) 0
          ({ acc.1 with player_bids := acc.1.player_bids.set i bid }, acc.2.tail))
        (s, σ)
    else (s, σ)
  else
    simulateFrom s σ s.trick_leader NUM_PLAYERS

/-- WizardEnv._finish_trick (sans the shaped float reward, which no claim
mentions): the winner takes the trick, leads the next one, and the trick
pile and lead suit are cleared. -/
def finishTrick (s : GameState) : GameState :=
  let winner := evaluateTrick s.trick_leader s.cards_played_in_trick s.trump_card
  { s with player_tricks := s.player_tricks.set winner ((s.player_tricks.getD winner 0) + 1),
           trick_leader := winner,
           position_in_trick := (4 - winner) % 4,
           cards_played_in_trick := [],
           lead_suit := .num NUM_SUITS }

/-- Scoring loop of `_finish_round`: a seat matching its bid gains
`1 + bid`, otherwise it loses `|bid - tricks|`. -/
def scoreRound (bids tricks : List Nat) (scores : List Int) : List Int :=
  (List.range NUM_PLAYERS).foldl (fun sc i =>
    let b := bids.getD i 0
    let t := tricks.getD i 0
    if t = b then sc.set i (sc.getD i 0 + 1 + (b : Int))
    else sc.set i (sc.getD i 0 - ((b : Int) - (t : Int)).natAbs)) scores

/-- WizardEnv._finish_round: score, advance the round counter, reset the
per-round fields, rotate the starter by one seat, and redeal from a fresh
globally-shuffled deck `nextDeck`. -/
def finishRound (s : GameState) (nextDeck : List Card) : GameState :=
  let starter := (s.round_starter + 1) % NUM_PLAYERS
  let s1 : GameState :=
    { s with player_scores := scoreRound s.player_bids s.player_tricks s.player_scores,
             round_number := s.round_number + 1,
             phase := 0,
             player_bids := s.player_bids.map (fun _ => 0),
             player_tricks := s.player_tricks.map (fun _ => 0),
             played_round := [],
             round_starter := starter,
             trick_leader := starter,
             position_in_trick := (4 - starter) % 4 }
  dealCards s1 nextDeck

/-- Candidate bids for seat `i` in the post-agent simulation loop of `step`:
the full range, with the hook-rule value removed ONLY when `i` is literally
`NUM_PLAYERS - 1` (which the loop reaches only when `round_starter == 0`). -/
def stepBidCandidates (round_number : Nat) (player_bids : List Nat) (i : Nat) :
    List Nat :=
  let valid_bids := List.range (round_number + 1)
  if i = NUM_PLAYERS - 1 then
    let forbidden_bid : Int := (round_number : Int) - (player_bids.sum : Int)
    if 0 ≤ forbidden_bid ∧ forbidden_bid ≤ (round_number : Int) then
      valid_bids.erase forbidden_bid.toNat
    else valid_bids
  else valid_bids

/-- Post-agent bid simulation of `step`:
`for i in range(1, round_starter) if round_starter != 0 else range(1, NUM_PLAYERS)`. -/
def stepBidSim (s : GameState) (σ : List Nat) : GameState × List Nat :=
  let idxs := if s.round_starter ≠ 0 then List.range' 1 (s.round_starter - 1)
              else List.range' 1 (NUM_PLAYERS - 1)
  idxs.foldl (fun (acc : GameState × List Nat) i =>
    let valid_bids := stepBidCandidates acc.1.round_number acc.1.player_bids i
    let bid := valid_bids.getD (acc.2.headD 0 % valid_bids.length) 0
    ({ acc.1 with player_bids := acc.1.player_bids.set i bid }, acc.2.tail)) (s, σ)

/-- Playing-branch tail of `step`, after `_process_play` succeeded: simulate
the rest of the trick, resolve it, and either close the round (redealing
from `nextDeck`) or advance to the agent's next turn.  Returns the `done`
flag of `step`. -/
def stepAfterPlay (s : GameState) (σ : List Nat) (nextDeck : List Card) :
    GameState × List Nat × Bool :=
  let r1 := simulateUntilLeader s σ (getNextPlayer 0) s.trick_leader NUM_PLAYERS
  let s2 := finishTrick r1.1
  if s2.hands.all (fun hand => hand.isEmpty) then
    let s3 := finishRound s2 nextDeck
    if MAX_ROUND < s3.round_number then (s3, r1.2, true)
    else
      ((playUntilAgentTurn s3 r1.2).1, (playUntilAgentTurn s3 r1.2).2, false)
  else
    ((playUntilAgentTurn s2 r1.2).1, (playUntilAgentTurn s2 r1.2).2, false)

/-- Bidding-branch tail of `step`, after `_process_bid` succeeded: simulate
the remaining bids, enter the playing phase, and simulate plays up to the
agent's turn. -/
def stepAfterBid (s : GameState) (σ : List Nat) : GameState × List Nat :=
  let s1 := (stepBidSim s σ).1
  let s2 : GameState :=
    { s1 with phase := 1, trick_leader := s1.round_starter,
              position_in_trick := (4 - s1.round_starter) % 4 }
  playUntilAgentTurn s2 (stepBidSim s σ).2

/-- WizardEnv.step.  `σ` is the np_random stream, `nextDeck` the next output
of the global `random.shuffle` (consumed only if the round closes), and the
result carries the new state, the remaining stream and the `done` flag.
Note the source never checks a previously returned `done`. -/
def step (s : GameState) (σ : List Nat) (nextDeck : List Card) (action : Nat) :
    Except String (GameState × List Nat × Bool) :=
  if s.phase = 0 then
    (processBid s action).map (fun s1 =>
      ((stepAfterBid s1 σ).1, (stepAfterBid s1 σ).2, false))
  else
    (processPlay s action).map (fun s1 => stepAfterPlay s1 σ nextDeck)

/-- Observation `state["hand"]` as recomputed by `_deal_cards`:
elementwise sum of the one-hot vectors of hands[0]. -/
def obsHand (s : GameState) : List Nat :=
  (s.hands.getD 0 []).foldl (fun v c => List.zipWith (fun a b => a + b) v (toVector c))
    (List.replicate DECK_SIZE 0)

/-- Multiset of cards currently accounted for by the partition of C5:
all hands, the cards played this round, the undealt remainder and the drawn
trump card. -/
def cardsOf (s : GameState) : Multiset Card :=
  (s.hands.flatten : Multiset Card) + (s.played_round : Multiset Card) +
    (s.deck_rest : Multiset Card) +
    (match s.trump_card with
     | none => (0 : Multiset Card)
     | some c => ({c} : Multiset Card))

/-- Cards held jointly by the dealing accumulator of `_deal_cards` (deck
remainder plus all hands being filled). -/
def combined (acc : List Card × List (List Card)) : Multiset Card :=
  (acc.1 : Multiset Card) + (acc.2.flatten : Multiset Card)

/-- Reachable states of one environment object: the constructor calls
`reset` with `round_starter = 0`; every later `reset` keeps the current
`round_starter`; `step` transitions through any successful call.  Every deck
handed to the engine is a `random.shuffle` permutation of the full deck, and
the np_random stream and agent actions are arbitrary. -/
inductive Reachable : GameState → Prop where
  | init (seed : Nat) (d : List Card) (hd : d.Perm createDeck) :
      Reachable (resetEnv 0 seed d)
  | again (s : GameState) (hs : Reachable s) (seed : Nat) (d : List Card)
      (hd : d.Perm createDeck) : Reachable (resetEnv s.round_starter seed d)
  | stepOk (s : GameState) (hs : Reachable s) (σ : List Nat) (d : List Card)
      (hd : d.Perm createDeck) (a : Nat) (s' : GameState) (σ' : List Nat)
      (done : Bool) (h : step s σ d a = .ok (s', σ', done)) : Reachable s'

/-- Comparison rule as worded by claim C1: a later non-Jester card replaces
the current winner iff it is trump while the current winner is not, or it
matches the current winner's suit with a strictly higher numeric rank.
`trump` is the trump suit (suit of the drawn trump card, if any). -/
def claimBeats (trump : Option Nat) (winning c : Card) : Bool :=
  (match trump with
   | some t => c.suit == t && winning.suit != t
   | none => false)
  || (c.suit == winning.suit && winning.value < c.value)

/-- Trick winner as worded by claim C1: last Wizard wins; all-Jester tricks
go to the trick leader; otherwise the winner starts as the first non-Jester
card played and each SUBSEQUENT non-Jester card replaces it iff it beats the
current winner. -/
def claimWinner (trick_leader : Nat) (cards : List Card) (trump : Option Nat) :
    Nat :=
  match (trickPairs trick_leader cards).reverse.find? (fun p => p.1.value == WIZARD) with
  | some p => p.2
  | none =>
    if (trickPairs trick_leader cards).all (fun p => p.1.value == JESTER) then
      trick_leader
    else
      match (trickPairs trick_leader cards).dropWhile (fun p => p.1.value == JESTER) with
      | [] => trick_leader
      | pivot :: rest =>
        (rest.foldl (fun w p =>
          if p.1.value = JESTER then w
          else if claimBeats trump w.1 p.1 then p else w) pivot).2

/-- Mid-trick playing-phase state: seat 3 led 7 of Clubs, the agent holds
the 5 of Hearts and the 3 of Clubs (so clubs must be followed). -/
def s4 : GameState :=
  { round_number := 2, phase := 1, round_starter := 3, trick_leader := 3,
    hands := [[⟨5, 0⟩, ⟨3, 2⟩], [⟨9, 1⟩, ⟨2, 1⟩], [⟨10, 3⟩, ⟨4, 0⟩], [⟨8, 2⟩]],
    trump_card := some ⟨6, 1⟩, deck_rest := [], cards_played_in_trick := [⟨7, 2⟩],
    played_round := [⟨7, 2⟩], player_bids := [1, 1, 1, 0],
    player_tricks := [0, 0, 0, 0], player_scores := [0, 0, 0, 0],
    lead_suit := .suitEnum 2, position_in_trick := 1 }

/-- Mid-trick playing-phase state: seat 3 led the Jester of Hearts (lead
suit still the sentinel), the agent holds the 5 of Hearts. -/
def s10 : GameState :=
  { s4 with hands := [[⟨5, 0⟩], [⟨9, 1⟩], [⟨10, 3⟩], []],
            cards_played_in_trick := [⟨0, 0⟩], played_round := [⟨0, 0⟩],
            lead_suit := .num NUM_SUITS }

/-- Round-1 bidding state with `round_starter = 2`: seats 2 and 3 have
auto-bid 0 (via `_play_until_agent_turn` after the previous round closed),
the agent bids next and seat 1 bids last. -/
def s6 : GameState :=
  { round_number := 1, phase := 0, round_starter := 2, trick_leader := 2,
    hands := [[⟨1, 0⟩], [⟨1, 1⟩], [⟨2, 0⟩], [⟨3, 0⟩]],
    trump_card := some ⟨5, 0⟩, deck_rest := [], cards_played_in_trick := [],
    played_round := [], player_bids := [0, 0, 0, 0], player_tricks := [0, 0, 0, 0],
    player_scores := [0, 0, 0, 0], lead_suit := .num NUM_SUITS,
    position_in_trick := 2 }

/-- Skeleton of the state `_finish_round` leaves after round 15 completes
(the `done = true` return of `step`): `round_number = 16 > MAX_ROUND`,
bidding phase, bids and tricks cleared, starter rotated to seat 3. -/
def base16 : GameState :=
  { round_number := 16, phase := 0, round_starter := 3, trick_leader := 3,
    hands := [[], [], [], []], trump_card := none, deck_rest := [],
    cards_played_in_trick := [], played_round := [], player_bids := [0, 0, 0, 0],
    player_tricks := [0, 0, 0, 0], player_scores := [57, -10, 23, 4],
    lead_suit := .num NUM_SUITS, position_in_trick := 1 }

/-- Post-game state after the redeal `_finish_round` performs for round 16:
every seat holds 15 cards, no trump remains. -/
def s16 : GameState := dealCards base16 createDeck

/-- C7: decoding any of the 60 encoding indices to a Card and re-encoding
it yields the original index — the card encoding is an exact bijection
between cards and indices 0..59 (numeric cards at `suit*13 + rank-1`,
Wizards at 52..55, Jesters at 56..59). -/
theorem card_encoding_roundtrip : ∀ i : Fin DECK_SIZE,
    toVectorIdx (fromVectorIdx i.val) = i.val := by decide

/-- C2 (code bug): in a reachable bidding state of round 2 where the three
other seats have already bid 0, 1 and 1, seat 0 is the last bidder and the
hook rule should exclude the forbidden value `2 - (0+1+1) = 0`, yet
`_get_valid_bids` returns the full set `[0, 1, 2]` — `np.count_nonzero`
treats the assigned bid 0 as "no bid yet", so the hook rule silently does
not fire. -/
theorem hook_rule_skipped_on_zero_bid :
    getValidBids 2 [0, 0, 1, 1] = [0, 1, 2]
      ∧ (2 : Int) - ((0 : Int) + 1 + 1) = 0
      ∧ 0 ∈ getValidBids 2 [0, 0, 1, 1] := by decide

/-- C3 (code bug): the deck shuffle of `_deal_cards` uses the process-global
`random.shuffle`, which `reset(seed=...)` does not seed, so with the SAME
seed two games can deal different hands: two legal global-shuffle outcomes
(the identity permutation and its reverse — both permutations of the full
deck) already give different first observations. -/
theorem seed_does_not_determine_deal :
    createDeck.reverse.Perm createDeck
      ∧ obsHand (resetEnv 0 0 createDeck) ≠ obsHand (resetEnv 0 0 createDeck.reverse) :=
  ⟨List.reverse_perm createDeck, by decide⟩

/-- C10 (code bug): after seat 3 leads the Jester of Hearts (lead suit
sentinel 4) and the agent then plays the 5 of Hearts, the trick's first
non-special card has suit index 0, but `_process_play` only writes
`lead_suit` on the trick's FIRST card, so the observation keeps the
sentinel 4. -/
theorem lead_suit_stale_after_special_lead :
    (processPlay s10 4).toOption.map GameState.lead_suit = some (.num 4)
      ∧ (processPlay s10 4).toOption.map (fun s =>
          (s.cards_played_in_trick.find? (fun c => c.value ≠ JESTER ∧ c.value ≠ WIZARD)).map
            Card.suit) = some (some 0) := by
  constructor
  · rfl
  · rfl

/-- C8 (code bug): `step` never checks that the game already ended.  On the
state `_finish_round` leaves after round 15 (round_number = 16 > MAX_ROUND,
for which `done = true` was returned), a further `step` with bid 0 succeeds
and keeps simulating: it returns `ok` with round 16 in the playing phase and
`done = false` instead of failing fast. -/
theorem step_after_done_continues :
    MAX_ROUND < s16.round_number
      ∧ (step s16 [0, 0, 0] [] 0).toOption.map
          (fun r => (r.1.round_number, r.1.phase, r.2.2)) = some (16, 1, false) := by
  constructor
  · decide
  · rfl

/-- C6 counterexample: in the round-1 bidding state `s6` (round starter =
seat 2, seats 2 and 3 already bid 0), seat 1 is the round's last bidder, so
by the claim its auto-bid must exclude the hook-forbidden value
`1 - (0+0+0) = 1`.  Yet the post-agent loop of `step` checks the hook only
for seat `NUM_PLAYERS - 1`, and with the RNG stream `[1, 0, 0]` seat 1 does
bid 1, making the bid total equal the round's trick count. -/
theorem last_bidder_hook_not_enforced :
    (step s6 [1, 0, 0] [] 0).toOption.map (fun r => r.1.player_bids) = some [0, 1, 0, 0]
      ∧ ([0, 1, 0, 0] : List Nat).sum = s6.round_number := by
  constructor
  · rfl
  · rfl

/-- C4 counterexample: in state `s4` the agent holds the 3 of Clubs and the
trick was led with a Club, so playing the 5 of Hearts (encoding index 4)
violates the suit-following rule — `_is_valid_play` rejects it — yet
`_process_play` raises no error and accepts the play. -/
theorem suit_violation_play_accepted :
    (processPlay s4 4).isOk = true
      ∧ isValidPlay ⟨5, 0⟩ (s4.hands.getD 0 []) s4.cards_played_in_trick = false := by
  constructor
  · rfl
  · rfl

theorem trickStep_jester (tc : Option Card) (w p : Card × Nat)
    (h : p.1.value = JESTER) : trickStep tc w p = w := by
  unfold trickStep; simp [h]

theorem trickStep_self (tc : Option Card) (x : Card × Nat) : trickStep tc x x = x := by
  unfold trickStep
  repeat' split
  all_goals rfl

theorem foldl_trickStep_jesters (tc : Option Card) (l : List (Card × Nat))
    (h : ∀ x ∈ l, x.1.value = JESTER) (w : Card × Nat) :
    l.foldl (trickStep tc) w = w := by
  induction l generalizing w with
  | nil => rfl
  | cons a l ih =>
    rw [List.foldl_cons, trickStep_jester _ _ _ (h a (List.mem_cons_self a l))]
    exact ih (fun x hx => h x (List.mem_cons_of_mem a hx)) w

theorem find?_neg_of_dropWhile {α} (p : α → Bool) (l : List α) (x : α) (xs : List α)
    (h : l.dropWhile p = x :: xs) : l.find? (fun a => !(p a)) = some x := by
  induction l with
  | nil => simp [List.dropWhile] at h
  | cons a l ih =>
    rw [List.dropWhile_cons] at h
    by_cases ha : p a
    · simp [ha] at h
      rw [List.find?_cons]
      simp [ha]
      exact ih h
    · simp [ha] at h
      obtain ⟨rfl, rfl⟩ := h
      rw [List.find?_cons]
      simp [ha]

theorem trickStep_eq_claimStep (tc : Option Card) (w p : Card × Nat) :
    trickStep tc w p = (if p.1.value = JESTER then w
      else if claimBeats (tc.map Card.suit) w.1 p.1 then p else w) := by
  cases tc with
  | none =>
    by_cases hj : p.1.value = JESTER <;>
    by_cases hs : p.1.suit = w.1.suit <;>
    by_cases hv : w.1.value < p.1.value <;>
    simp [trickStep, claimBeats, hj, hs, hv]
  | some t =>
    by_cases hj : p.1.value = JESTER <;>
    by_cases hs : p.1.suit = w.1.suit <;>
    by_cases hv : w.1.value < p.1.value <;>
    by_cases hpt : p.1.suit = t.suit <;>
    by_cases hwt : w.1.suit = t.suit <;>
    simp [trickStep, claimBeats, hj, hs, hv, hpt, hwt]

theorem dropWhile_ne_nil_of_not_all {α} (p : α → Bool) (l : List α)
    (h : ¬ l.all p = true) : l.dropWhile p ≠ [] := by
  intro hnil
  apply h
  rw [List.all_eq_true]
  intro x hx
  exact List.dropWhile_eq_nil_iff.mp hnil x hx

/-- C1: for every non-empty trick, `_evaluate_trick` computes exactly the
ordering claimed: if any Wizard was played the seat of the last Wizard wins;
else if every card is a Jester the trick leader wins; else the winner starts
as the first non-Jester card and each subsequent non-Jester card replaces it
iff it is trump while the current winner is not, or it matches the current
winner's suit with a strictly higher numeric rank (`claimWinner` transcribes
the claim's wording; the trump suit is the drawn trump card's suit). -/
theorem trick_evaluation_matches_spec (trick_leader : Nat) (cards : List Card)
    (trump_card : Option Card) (h : cards ≠ []) :
    evaluateTrick trick_leader cards trump_card
      = claimWinner trick_leader cards (trump_card.map Card.suit) := by
  have _ := h
  unfold evaluateTrick claimWinner
  cases hw : (trickPairs trick_leader cards).reverse.find? (fun p => p.1.value == WIZARD) with
  | some p => rfl
  | none =>
    by_cases hall : (trickPairs trick_leader cards).all (fun p => p.1.value == JESTER)
    · simp [hall]
    · rw [if_neg hall, if_neg hall]
      obtain ⟨pivot, rest, hd⟩ : ∃ pivot rest,
          (trickPairs trick_leader cards).dropWhile (fun p => p.1.value == JESTER)
            = pivot :: rest := by
        cases hdd : (trickPairs trick_leader cards).dropWhile (fun p => p.1.value == JESTER) with
        | nil => exact absurd hdd (dropWhile_ne_nil_of_not_all _ _ hall)
        | cons a l => exact ⟨a, l, rfl⟩
      rw [hd]
      have hfind : (trickPairs trick_leader cards).find? (fun p => p.1.value != JESTER)
          = some pivot := find?_neg_of_dropWhile _ _ _ _ hd
      rw [hfind]
      simp only [Option.getD_some]
      have hsplit : trickPairs trick_leader cards
          = (trickPairs trick_leader cards).takeWhile (fun p => p.1.value == JESTER)
            ++ (pivot :: rest) := by
        conv_lhs => rw [← List.takeWhile_append_dropWhile
          (fun p => p.1.value == JESTER) (trickPairs trick_leader cards)]
        rw [hd]
      have hpre : List.foldl (trickStep trump_card) pivot
          ((trickPairs trick_leader cards).takeWhile (fun p => p.1.value == JESTER))
            = pivot :=
        foldl_trickStep_jesters _ _
          (fun x hx => by simpa using List.mem_takeWhile_imp hx) pivot
      conv_lhs => rw [hsplit]
      rw [List.foldl_append, hpre, List.foldl_cons, trickStep_self]
      congr 1
      exact List.foldl_ext _ _ pivot (fun w x _ => trickStep_eq_claimStep trump_card w x)

/-- Witness for C1: the spec's own example — trump Diamonds, trick
5 of Clubs (leads), 9 of Clubs, 3 of Diamonds — where the trump card beats
the higher lead-suit card, decided through the claim theorem. -/
theorem trick_evaluation_matches_spec_witness :
    ([⟨5, 2⟩, ⟨9, 2⟩, ⟨3, 1⟩] : List Card) ≠ []
      ∧ evaluateTrick 0 [⟨5, 2⟩, ⟨9, 2⟩, ⟨3, 1⟩] (some ⟨7, 1⟩)
          = claimWinner 0 [⟨5, 2⟩, ⟨9, 2⟩, ⟨3, 1⟩]
              ((some (⟨7, 1⟩ : Card)).map Card.suit) :=
  ⟨by decide, trick_evaluation_matches_spec 0 _ _ (by decide)⟩

/-- C9 counterexample: `reset()` does not reinitialize `round_starter`
(only `__init__` sets it to 0), so a game created by `reset` does NOT start
with a fixed initial seat: resetting an environment whose previous game left
`round_starter = 3` starts the new game at seat 3, not at seat 0. -/
theorem reset_keeps_round_starter :
    (resetEnv 3 0 createDeck).round_starter = 3
      ∧ (resetEnv 3 0 createDeck).round_starter
          ≠ (resetEnv 0 0 createDeck).round_starter := by
  constructor
  · rfl
  · decide

theorem findCardIdx_eq_none_iff (t : Card) (l : List Card) :
    findCardIdx t l = none ↔ t ∉ l := by
  induction l with
  | nil => simp [findCardIdx]
  | cons c rest ih =>
    unfold findCardIdx
    by_cases hc : c.suit = t.suit ∧ c.value = t.value
    · have hct : c = t := by
        obtain ⟨h1, h2⟩ := hc
        cases c; cases t; simp_all
      rw [if_pos hc]
      simp [hct]
    · have hne : t ≠ c := by
        intro he
        exact hc (by rw [he]; exact ⟨rfl, rfl⟩)
      rw [if_neg hc]
      simp [Option.map_eq_none', ih, List.mem_cons, hne]

/-- C4 amended: in the Playing phase (for a decodable action index), the
agent's play fails IFF the decoded card is not held by the agent.  The
suit-following rule is NOT enforced by `_process_play` (it only drives the
`valid_actions` mask), and the failure is raised before any mutation, so a
failing play leaves the state unchanged (the embedding returns no successor
state on error). -/
theorem processPlay_fails_iff_not_held (s : GameState) (a : Nat)
    (h1 : s.phase = 1) (h2 : a < DECK_SIZE) :
    (processPlay s a).isOk = false ↔ fromVectorIdx a ∉ s.hands.getD 0 [] := by
  unfold processPlay
  rw [if_neg (by simp [h1]), if_neg (by omega)]
  unfold vectorIdxToHandIdx
  cases hf : findCardIdx (fromVectorIdx a) (s.hands.getD 0 []) with
  | none =>
    simp only []
    constructor
    · intro _; exact (findCardIdx_eq_none_iff _ _).mp hf
    · intro _; rfl
  | some i =>
    simp only []
    constructor
    · intro hok
      exfalso
      revert hok
      split <;> simp [Except.isOk, Except.toBool]
    · intro hmem
      exact absurd ((findCardIdx_eq_none_iff _ _).mpr hmem) (by rw [hf]; simp)

/-- Witness for C4: in state `s4` the agent does not hold the 8 of Diamonds
(encoding index 20), so playing it fails. -/
theorem processPlay_fails_iff_not_held_witness :
    s4.phase = 1 ∧ (20 : Nat) < DECK_SIZE ∧ (processPlay s4 20).isOk = false :=
  ⟨rfl, by decide, (processPlay_fails_iff_not_held s4 20 rfl (by decide)).mpr (by decide)⟩

theorem getD_mem_of_lt {α} [Inhabited α] (l : List α) (n : Nat) (h : n < l.length) :
    l.getD n default ∈ l := by
  rw [List.getD_eq_getElem l default h]
  exact List.getElem_mem h

theorem simChoice_valid (s : GameState) (σ : List Nat) (p : Nat)
    (hne : ((s.hands.getD p []).filter
      (fun c => isValidPlay c (s.hands.getD p []) s.cards_played_in_trick)) ≠ []) :
    isValidPlay (simChoice s σ p) (s.hands.getD p []) s.cards_played_in_trick = true := by
  have hlen : 0 < ((s.hands.getD p []).filter
      (fun c => isValidPlay c (s.hands.getD p []) s.cards_played_in_trick)).length :=
    List.length_pos.mpr hne
  have hmem : ((s.hands.getD p []).filter
      (fun c => isValidPlay c (s.hands.getD p []) s.cards_played_in_trick)).getD
        (σ.headD 0 % ((s.hands.getD p []).filter
          (fun c => isValidPlay c (s.hands.getD p []) s.cards_played_in_trick)).length)
        default
      ∈ (s.hands.getD p []).filter
        (fun c => isValidPlay c (s.hands.getD p []) s.cards_played_in_trick) :=
    getD_mem_of_lt _ _ (Nat.mod_lt _ hlen)
  have h2 := List.of_mem_filter hmem
  exact h2

/-- C6 amended: every auto-play of `_simulate_play` honors the follow-suit
rule (the chosen card always satisfies `_is_valid_play`), but the hook rule
is honored only for seat `NUM_PLAYERS - 1` in the post-agent bid loop of
`step` (reached only when `round_starter = 0`); every other seat's auto-bid
— including the round's last bidder when `round_starter ∈ {2, 3}`, and all
pre-agent bidders of `_play_until_agent_turn` — draws from the full range
`[0, round_number]`. -/
theorem opponent_policy_amended :
    (∀ (s : GameState) (σ : List Nat) (p : Nat),
        ((s.hands.getD p []).filter
          (fun c => isValidPlay c (s.hands.getD p []) s.cards_played_in_trick)) ≠ [] →
        isValidPlay (simChoice s σ p) (s.hands.getD p []) s.cards_played_in_trick = true)
      ∧ (∀ (rn : Nat) (bids : List Nat) (i : Nat), i ≠ NUM_PLAYERS - 1 →
          stepBidCandidates rn bids i = List.range (rn + 1))
      ∧ (∀ (rn : Nat) (bids : List Nat),
          0 ≤ (rn : Int) - (bids.sum : Int) → (rn : Int) - (bids.sum : Int) ≤ (rn : Int) →
          ((rn : Int) - (bids.sum : Int)).toNat ∉ stepBidCandidates rn bids (NUM_PLAYERS - 1)) := by
  refine ⟨?_, ?_, ?_⟩
  · exact simChoice_valid
  · intro rn bids i hi
    unfold stepBidCandidates
    rw [if_neg hi]
  · intro rn bids h0 h1
    unfold stepBidCandidates
    rw [if_pos rfl, if_pos ⟨h0, h1⟩]
    intro hmem
    exact (((List.nodup_range (rn + 1)).mem_erase_iff).mp hmem).1 rfl

/-- Witness for C6 amended: seat 1's simulated play in state `s4` is legal;
seat 1's auto-bid candidates in round 1 are the full `[0, 1]`; seat 3's
auto-bid candidates exclude the hook value 1. -/
theorem opponent_policy_amended_witness :
    isValidPlay (simChoice s4 [] 1) (s4.hands.getD 1 []) s4.cards_played_in_trick = true
      ∧ stepBidCandidates 1 [0, 0, 0, 0] 1 = [0, 1]
      ∧ (1 : Nat) ∉ stepBidCandidates 1 [0, 0, 0, 0] 3 := by
  refine ⟨opponent_policy_amended.1 s4 [] 1 (by decide),
          opponent_policy_amended.2.1 1 [0, 0, 0, 0] 1 (by decide), ?_⟩
  have h := opponent_policy_amended.2.2 1 [0, 0, 0, 0] (by decide) (by decide)
  have e : (((1 : Nat) : Int) - (([0, 0, 0, 0] : List Nat).sum : Int)).toNat = 1 := by decide
  rw [e] at h
  exact h

theorem dealCards_round_starter (s : GameState) (d : List Card) :
    (dealCards s d).round_starter = s.round_starter := by
  simp only [dealCards, dealFinish]
  split <;> rfl

/-- C9 amended: `round_starter` advances by exactly 1 (mod seat count) at
each round transition (`_finish_round`), but `reset()` leaves
`round_starter` untouched, so only the constructor-time game starts at the
fixed seat 0; a game created by a later `reset()` starts at whatever seat
the previous game's rotation reached. -/
theorem round_starter_rotation_amended :
    (∀ (s : GameState) (d : List Card),
        (finishRound s d).round_starter = (s.round_starter + 1) % NUM_PLAYERS)
      ∧ (∀ (rs seed : Nat) (d : List Card), (resetEnv rs seed d).round_starter = rs) := by
  constructor
  · intro s d
    unfold finishRound
    rw [dealCards_round_starter]
  · intro rs seed d
    unfold resetEnv
    rw [dealCards_round_starter]

theorem foldl_preserve {α β : Type} (P : β → Prop) (f : β → α → β) (l : List α)
    (h : ∀ b, ∀ a ∈ l, P b → P (f b a)) : ∀ b, P b → P (l.foldl f b) := by
  induction l with
  | nil => intro b hb; exact hb
  | cons a l ih =>
    intro b hb
    exact ih (fun b' a' ha' hb' => h b' a' (List.mem_cons_of_mem a ha') hb')
      (f b a) (h b a (List.mem_cons_self a l) hb)

theorem flatten_set_mass (hs : List (List Card)) (p : Nat) (x : List Card)
    (hp : p < hs.length) :
    ((hs.set p x).flatten : Multiset Card) + (hs.getD p [] : Multiset Card)
      = (hs.flatten : Multiset Card) + (x : Multiset Card) := by
  induction hs generalizing p with
  | nil => simp at hp
  | cons h t ih =>
    cases p with
    | zero =>
      simp only [List.set, List.flatten_cons, List.getD_cons_zero]
      rw [← Multiset.coe_add, ← Multiset.coe_add]
      abel
    | succ p =>
      simp only [List.set, List.flatten_cons, List.getD_cons_succ]
      have hp' : p < t.length := by simpa using hp
      rw [← Multiset.coe_add, ← Multiset.coe_add, add_assoc, ih p hp', ← add_assoc]

theorem popToPlayer_len (acc : List Card × List (List Card)) (player : Nat) :
    (popToPlayer acc player).2.length = acc.2.length := by
  unfold popToPlayer
  cases acc.1.getLast? with
  | none => rfl
  | some c => simp

theorem popToPlayer_mass (acc : List Card × List (List Card)) (player : Nat)
    (hp : player < acc.2.length) :
    combined (popToPlayer acc player) = combined acc := by
  unfold popToPlayer
  cases hl : acc.1.getLast? with
  | none => rfl
  | some c =>
    simp only [combined]
    have hsplit : acc.1.dropLast ++ [c] = acc.1 := List.dropLast_append_getLast? c hl
    have hset := flatten_set_mass acc.2 player (acc.2.getD player [] ++ [c]) hp
    rw [← Multiset.coe_add] at hset
    conv_rhs => rw [← hsplit]
    rw [← Multiset.coe_add]
    have hset' : ((acc.2.set player (acc.2.getD player [] ++ [c])).flatten : Multiset Card)
          + (acc.2.getD player [] : Multiset Card)
        = ((acc.2.flatten : Multiset Card) + (([c] : List Card) : Multiset Card))
          + (acc.2.getD player [] : Multiset Card) := by
      rw [hset]; abel
    rw [add_right_cancel hset']
    abel

theorem dealRound_inv (acc : List Card × List (List Card))
    (h : acc.2.length = NUM_PLAYERS) :
    combined (dealRound acc) = combined acc ∧ (dealRound acc).2.length = NUM_PLAYERS := by
  unfold dealRound
  exact foldl_preserve
    (fun b => combined b = combined acc ∧ b.2.length = NUM_PLAYERS)
    popToPlayer (List.range NUM_PLAYERS)
    (fun b a ha hb => ⟨(popToPlayer_mass b a (by
        rw [hb.2]; exact List.mem_range.mp ha)).trans hb.1,
      (popToPlayer_len b a).trans hb.2⟩)
    acc ⟨rfl, h⟩

theorem dealFinish_cards (s : GameState) (acc : List Card × List (List Card)) :
    cardsOf (dealFinish s acc) = combined acc + (s.played_round : Multiset Card)
      ∧ (dealFinish s acc).hands.length = acc.2.length := by
  unfold dealFinish
  cases hl : acc.1.getLast? with
  | none =>
    constructor
    · simp only [cardsOf, combined]
      abel
    · rfl
  | some c =>
    have hsplit : acc.1.dropLast ++ [c] = acc.1 := List.dropLast_append_getLast? c hl
    constructor
    · simp only [cardsOf, combined]
      conv_rhs => rw [← hsplit]
      rw [← Multiset.coe_add, ← Multiset.coe_singleton c]
      abel
    · rfl

theorem dealCards_cards (s : GameState) (d : List Card) :
    cardsOf (dealCards s d) = (d : Multiset Card) + (s.played_round : Multiset Card)
      ∧ (dealCards s d).hands.length = NUM_PLAYERS := by
  unfold dealCards
  have hrep : (List.replicate NUM_PLAYERS ([] : List Card)).flatten = [] := rfl
  have hinit : combined (d, List.replicate NUM_PLAYERS ([] : List Card))
        = (d : Multiset Card)
      ∧ (d, List.replicate NUM_PLAYERS ([] : List Card)).2.length = NUM_PLAYERS := by
    constructor
    · simp [combined, hrep]
    · simp
  have hfold := foldl_preserve
    (fun b => combined b = (d : Multiset Card) ∧ b.2.length = NUM_PLAYERS)
    (fun a _ => dealRound a) (List.range s.round_number)
    (fun b a ha hb => by
      obtain ⟨h1, h2⟩ := dealRound_inv b hb.2
      exact ⟨h1.trans hb.1, h2⟩)
    (d, List.replicate NUM_PLAYERS ([] : List Card)) hinit
  obtain ⟨h1, h2⟩ := dealFinish_cards s
    ((List.range s.round_number).foldl (fun a _ => dealRound a)
      (d, List.replicate NUM_PLAYERS ([] : List Card)))
  exact ⟨by rw [h1, hfold.1], by rw [h2, hfold.2]⟩

theorem findCardIdx_some (t : Card) (l : List Card) (i : Nat)
    (h : findCardIdx t l = some i) : i < l.length ∧ l.getD i default = t := by
  induction l generalizing i with
  | nil => simp [findCardIdx] at h
  | cons c rest ih =>
    unfold findCardIdx at h
    by_cases hc : c.suit = t.suit ∧ c.value = t.value
    · rw [if_pos hc] at h
      have hi : i = 0 := by
        cases h
        rfl
      subst hi
      have hct : c = t := by
        obtain ⟨h1, h2⟩ := hc
        cases c; cases t; simp_all
      exact ⟨Nat.succ_pos _, by simp [hct]⟩
    · rw [if_neg hc] at h
      cases hfr : findCardIdx t rest with
      | none => rw [hfr] at h; simp at h
      | some j =>
        rw [hfr] at h
        simp only [Option.map_some'] at h
        have hij : i = j + 1 := by
          cases h
          rfl
        subst hij
        obtain ⟨h1, h2⟩ := ih j hfr
        exact ⟨Nat.succ_lt_succ h1, by simpa using h2⟩

theorem eraseIdx_mass (l : List Card) (i : Nat) (hi : i < l.length) :
    ((l.eraseIdx i : List Card) : Multiset Card) + {l.getD i default}
      = (l : Multiset Card) := by
  induction l generalizing i with
  | nil => simp at hi
  | cons c rest ih =>
    cases i with
    | zero =>
      simp only [List.eraseIdx, List.getD_cons_zero]
      rw [← Multiset.coe_singleton, Multiset.coe_add, Multiset.coe_eq_coe]
      exact List.perm_append_comm
    | succ i =>
      simp only [List.eraseIdx, List.getD_cons_succ]
      have hi' : i < rest.length := by simpa using hi
      rw [← Multiset.cons_coe, ← Multiset.cons_coe, Multiset.cons_add]
      rw [ih i hi']

theorem processBid_cards (s : GameState) (b : Nat) (s' : GameState)
    (h : processBid s b = .ok s') :
    cardsOf s' = cardsOf s ∧ s'.hands.length = s.hands.length := by
  unfold processBid at h
  split at h
  · cases h
    exact ⟨rfl, rfl⟩
  · cases h

theorem processPlay_cards (s : GameState) (a : Nat) (s' : GameState)
    (h : processPlay s a = .ok s') :
    cardsOf s' = cardsOf s ∧ s'.hands.length = s.hands.length := by
  unfold processPlay at h
  split at h
  · cases h
  split at h
  · cases h
  · rename_i hphase hsize
    cases hfi : vectorIdxToHandIdx (s.hands.getD 0 []) a with
    | none => rw [hfi] at h; cases h
    | some i =>
      rw [hfi] at h
      simp only [] at h
      obtain ⟨hlt, hget⟩ := findCardIdx_some _ _ _ hfi
      have hhead : 0 < s.hands.length := by
        by_contra h0
        have : s.hands.getD 0 [] = [] :=
          List.getD_eq_default _ _ (by omega)
        rw [this] at hlt
        simp at hlt
      have hmassHands : ((s.hands.set 0
            ((s.hands.getD 0 []).eraseIdx i)).flatten : Multiset Card)
            + (s.hands.getD 0 [] : Multiset Card)
          = (s.hands.flatten : Multiset Card)
            + ((s.hands.getD 0 []).eraseIdx i : Multiset Card) :=
        flatten_set_mass s.hands 0 _ hhead
      have herase := eraseIdx_mass (s.hands.getD 0 []) i hlt
      have hcards : cardsOf { s with
            hands := s.hands.set 0 ((s.hands.getD 0 []).eraseIdx i),
            cards_played_in_trick :=
              s.cards_played_in_trick ++ [(s.hands.getD 0 []).getD i default],
            played_round := s.played_round ++ [(s.hands.getD 0 []).getD i default] }
          = cardsOf s := by
        have hkey : ((s.hands.set 0
              ((s.hands.getD 0 []).eraseIdx i)).flatten : Multiset Card)
              + (([(s.hands.getD 0 []).getD i default] : List Card) : Multiset Card)
            = (s.hands.flatten : Multiset Card) := by
          have h1 : ((s.hands.set 0
                ((s.hands.getD 0 []).eraseIdx i)).flatten : Multiset Card)
                + (([(s.hands.getD 0 []).getD i default] : List Card) : Multiset Card)
                + (((s.hands.getD 0 []).eraseIdx i : List Card) : Multiset Card)
              = (s.hands.flatten : Multiset Card)
                + (((s.hands.getD 0 []).eraseIdx i : List Card) : Multiset Card) := by
            calc ((s.hands.set 0
                  ((s.hands.getD 0 []).eraseIdx i)).flatten : Multiset Card)
                  + (([(s.hands.getD 0 []).getD i default] : List Card) : Multiset Card)
                  + (((s.hands.getD 0 []).eraseIdx i : List Card) : Multiset Card)
                = ((s.hands.set 0
                    ((s.hands.getD 0 []).eraseIdx i)).flatten : Multiset Card)
                  + ((((s.hands.getD 0 []).eraseIdx i : List Card) : Multiset Card)
                    + {(s.hands.getD 0 []).getD i default}) := by
                  rw [Multiset.coe_singleton]
                  abel
              _ = ((s.hands.set 0
                    ((s.hands.getD 0 []).eraseIdx i)).flatten : Multiset Card)
                  + (s.hands.getD 0 [] : Multiset Card) := by rw [herase]
              _ = (s.hands.flatten : Multiset Card)
                  + (((s.hands.getD 0 []).eraseIdx i : List Card) : Multiset Card) :=
                hmassHands
          exact add_right_cancel h1
        simp only [cardsOf]
        rw [← Multiset.coe_add]
        conv_rhs => rw [← hkey]
        abel
      split at h
      · cases h
        exact ⟨hcards, List.length_set s.hands 0 _⟩
      · cases h
        exact ⟨hcards, List.length_set s.hands 0 _⟩

theorem simulatePlay_cards (s : GameState) (σ : List Nat) (p : Nat) :
    cardsOf (simulatePlay s σ p).1 = cardsOf s
      ∧ (simulatePlay s σ p).1.hands.length = s.hands.length := by
  unfold simulatePlay
  by_cases hvc : ((s.hands.getD p []).filter
      (fun c => isValidPlay c (s.hands.getD p []) s.cards_played_in_trick)).isEmpty
  · rw [if_pos hvc]
    exact ⟨rfl, rfl⟩
  · rw [if_neg hvc]
    simp only []
    have hne : (s.hands.getD p []).filter
        (fun c => isValidPlay c (s.hands.getD p []) s.cards_played_in_trick) ≠ [] := by
      intro hnil
      rw [hnil] at hvc
      exact hvc rfl
    have hlenf : 0 < ((s.hands.getD p []).filter
        (fun c => isValidPlay c (s.hands.getD p []) s.cards_played_in_trick)).length :=
      List.length_pos.mpr hne
    have hmemf : simChoice s σ p ∈ (s.hands.getD p []).filter
        (fun c => isValidPlay c (s.hands.getD p []) s.cards_played_in_trick) :=
      getD_mem_of_lt _ _ (Nat.mod_lt _ hlenf)
    have hmem : simChoice s σ p ∈ s.hands.getD p [] := List.mem_of_mem_filter hmemf
    have hp4 : p < s.hands.length := by
      by_contra h0
      have hd0 : s.hands.getD p [] = [] := List.getD_eq_default _ _ (by omega)
      rw [hd0] at hne
      exact hne rfl
    have hperm : (s.hands.getD p [] : Multiset Card)
        = ((s.hands.getD p []).erase (simChoice s σ p) : Multiset Card)
          + {simChoice s σ p} := by
      rw [Multiset.coe_eq_coe.mpr (List.perm_cons_erase hmem), ← Multiset.cons_coe,
        ← Multiset.singleton_add]
      exact add_comm _ _
    have hset := flatten_set_mass s.hands p
      ((s.hands.getD p []).erase (simChoice s σ p)) hp4
    have hkey : ((s.hands.set p
          ((s.hands.getD p []).erase (simChoice s σ p))).flatten : Multiset Card)
          + {simChoice s σ p}
        = (s.hands.flatten : Multiset Card) := by
      have h1 : ((s.hands.set p
            ((s.hands.getD p []).erase (simChoice s σ p))).flatten : Multiset Card)
            + {simChoice s σ p}
            + (((s.hands.getD p []).erase (simChoice s σ p) : List Card) : Multiset Card)
          = (s.hands.flatten : Multiset Card)
            + (((s.hands.getD p []).erase (simChoice s σ p) : List Card) : Multiset Card) := by
        calc ((s.hands.set p
              ((s.hands.getD p []).erase (simChoice s σ p))).flatten : Multiset Card)
              + {simChoice s σ p}
              + (((s.hands.getD p []).erase (simChoice s σ p) : List Card) : Multiset Card)
            = ((s.hands.set p
                ((s.hands.getD p []).erase (simChoice s σ p))).flatten : Multiset Card)
              + ((((s.hands.getD p []).erase (simChoice s σ p) : List Card) : Multiset Card)
                + {simChoice s σ p}) := by abel
          _ = ((s.hands.set p
                ((s.hands.getD p []).erase (simChoice s σ p))).flatten : Multiset Card)
              + (s.hands.getD p [] : Multiset Card) := by rw [← hperm]
          _ = (s.hands.flatten : Multiset Card)
              + (((s.hands.getD p []).erase (simChoice s σ p) : List Card) : Multiset Card) :=
            hset
      exact add_right_cancel h1
    have hmain : cardsOf { s with
          hands := s.hands.set p ((s.hands.getD p []).erase (simChoice s σ p)),
          cards_played_in_trick := s.cards_played_in_trick ++ [simChoice s σ p],
          played_round := s.played_round ++ [simChoice s σ p] }
        = cardsOf s := by
      simp only [cardsOf]
      rw [← Multiset.coe_add]
      conv_rhs => rw [← hkey]
      rw [← Multiset.coe_singleton (simChoice s σ p)]
      abel
    by_cases hlead : leadUnset s.lead_suit = true
        ∧ (simChoice s σ p).value ≠ WIZARD ∧ (simChoice s σ p).value ≠ JESTER
    · rw [if_pos hlead]
      exact ⟨hmain, List.length_set _ _ _⟩
    · rw [if_neg hlead]
      exact ⟨hmain, List.length_set _ _ _⟩

theorem finishTrick_cards (s : GameState) :
    cardsOf (finishTrick s) = cardsOf s
      ∧ (finishTrick s).hands.length = s.hands.length := by
  constructor
  · simp only [finishTrick, cardsOf]
  · simp only [finishTrick]

theorem finishRound_cards (s : GameState) (d : List Card) :
    cardsOf (finishRound s d) = (d : Multiset Card)
      ∧ (finishRound s d).hands.length = NUM_PLAYERS := by
  unfold finishRound
  refine ⟨?_, (dealCards_cards _ d).2⟩
  rw [(dealCards_cards _ d).1]
  show (d : Multiset Card) + (([] : List Card) : Multiset Card) = (d : Multiset Card)
  simp

theorem cardsOf_setBids (s : GameState) (bids : List Nat) :
    cardsOf { s with player_bids := bids } = cardsOf s
      ∧ ({ s with player_bids := bids } : GameState).hands.length = s.hands.length :=
  ⟨rfl, rfl⟩

theorem stepBidSim_cards (s : GameState) (σ : List Nat) :
    cardsOf (stepBidSim s σ).1 = cardsOf s
      ∧ (stepBidSim s σ).1.hands.length = s.hands.length := by
  unfold stepBidSim
  simp only []
  apply foldl_preserve
    (fun (b : GameState × List Nat) =>
      cardsOf b.1 = cardsOf s ∧ b.1.hands.length = s.hands.length)
  · intro b a ha hb
    exact ⟨(cardsOf_setBids b.1 _).1.trans hb.1, (cardsOf_setBids b.1 _).2.trans hb.2⟩
  · exact ⟨rfl, rfl⟩

theorem simulateFrom_cards (fuel : Nat) :
    ∀ (s : GameState) (σ : List Nat) (current : Nat),
    cardsOf (simulateFrom s σ current fuel).1 = cardsOf s
      ∧ (simulateFrom s σ current fuel).1.hands.length = s.hands.length := by
  induction fuel with
  | zero => intro s σ c; exact ⟨rfl, rfl⟩
  | succ fuel ih =>
    intro s σ c
    unfold simulateFrom
    by_cases hc : c = 0
    · rw [if_pos hc]; exact ⟨rfl, rfl⟩
    · rw [if_neg hc]
      obtain ⟨h1, h2⟩ := ih (simulatePlay s σ c).1 (simulatePlay s σ c).2 (getNextPlayer c)
      obtain ⟨g1, g2⟩ := simulatePlay_cards s σ c
      exact ⟨h1.trans g1, h2.trans g2⟩

theorem simulateUntilLeader_cards (fuel : Nat) :
    ∀ (s : GameState) (σ : List Nat) (current target : Nat),
    cardsOf (simulateUntilLeader s σ current target fuel).1 = cardsOf s
      ∧ (simulateUntilLeader s σ current target fuel).1.hands.length = s.hands.length := by
  induction fuel with
  | zero => intro s σ c t; exact ⟨rfl, rfl⟩
  | succ fuel ih =>
    intro s σ c t
    unfold simulateUntilLeader
    by_cases hc : c = t
    · rw [if_pos hc]; exact ⟨rfl, rfl⟩
    · rw [if_neg hc]
      obtain ⟨h1, h2⟩ := ih (simulatePlay s σ c).1 (simulatePlay s σ c).2 (getNextPlayer c) t
      obtain ⟨g1, g2⟩ := simulatePlay_cards s σ c
      exact ⟨h1.trans g1, h2.trans g2⟩

theorem playUntilAgentTurn_cards (s : GameState) (σ : List Nat) :
    cardsOf (playUntilAgentTurn s σ).1 = cardsOf s
      ∧ (playUntilAgentTurn s σ).1.hands.length = s.hands.length := by
  unfold playUntilAgentTurn
  by_cases hp : s.phase = 0
  · rw [if_pos hp]
    by_cases hrs : s.round_starter ≠ 0
    · rw [if_pos hrs]
      apply foldl_preserve
        (fun (b : GameState × List Nat) =>
          cardsOf b.1 = cardsOf s ∧ b.1.hands.length = s.hands.length)
      · intro b a ha hb
        exact ⟨(cardsOf_setBids b.1 _).1.trans hb.1, (cardsOf_setBids b.1 _).2.trans hb.2⟩
      · exact ⟨rfl, rfl⟩
    · rw [if_neg hrs]; exact ⟨rfl, rfl⟩
  · rw [if_neg hp]
    exact simulateFrom_cards NUM_PLAYERS s σ s.trick_leader

theorem stepAfterBid_cards (s : GameState) (σ : List Nat) :
    cardsOf (stepAfterBid s σ).1 = cardsOf s
      ∧ (stepAfterBid s σ).1.hands.length = s.hands.length := by
  unfold stepAfterBid
  simp only []
  obtain ⟨g1, g2⟩ := stepBidSim_cards s σ
  refine ⟨(playUntilAgentTurn_cards _ _).1.trans ?_,
    (playUntilAgentTurn_cards _ _).2.trans ?_⟩
  · exact g1
  · exact g2

theorem stepAfterPlay_cards (s : GameState) (σ : List Nat) (d : List Card)
    (hc : cardsOf s = (createDeck : Multiset Card))
    (hd : (d : Multiset Card) = (createDeck : Multiset Card))
    (hl : s.hands.length = NUM_PLAYERS) :
    cardsOf (stepAfterPlay s σ d).1 = (createDeck : Multiset Card)
      ∧ (stepAfterPlay s σ d).1.hands.length = NUM_PLAYERS := by
  unfold stepAfterPlay
  simp only []
  obtain ⟨hs1, hs2⟩ := simulateUntilLeader_cards NUM_PLAYERS s σ (getNextPlayer 0) s.trick_leader
  obtain ⟨hf1, hf2⟩ := finishTrick_cards
    (simulateUntilLeader s σ (getNextPlayer 0) s.trick_leader NUM_PLAYERS).1
  split
  · split
    · exact ⟨(finishRound_cards _ d).1.trans hd, (finishRound_cards _ d).2⟩
    · obtain ⟨hp1, hp2⟩ := playUntilAgentTurn_cards
        (finishRound (finishTrick
          (simulateUntilLeader s σ (getNextPlayer 0) s.trick_leader NUM_PLAYERS).1) d)
        (simulateUntilLeader s σ (getNextPlayer 0) s.trick_leader NUM_PLAYERS).2
      exact ⟨hp1.trans ((finishRound_cards _ d).1.trans hd),
        hp2.trans (finishRound_cards _ d).2⟩
  · obtain ⟨hp1, hp2⟩ := playUntilAgentTurn_cards
      (finishTrick (simulateUntilLeader s σ (getNextPlayer 0) s.trick_leader NUM_PLAYERS).1)
      (simulateUntilLeader s σ (getNextPlayer 0) s.trick_leader NUM_PLAYERS).2
    exact ⟨hp1.trans (hf1.trans (hs1.trans hc)), hp2.trans (hf2.trans (hs2.trans hl))⟩

theorem step_cards (s : GameState) (σ : List Nat) (d : List Card) (a : Nat)
    (s' : GameState) (σ' : List Nat) (done : Bool)
    (h : step s σ d a = .ok (s', σ', done))
    (hc : cardsOf s = (createDeck : Multiset Card))
    (hd : (d : Multiset Card) = (createDeck : Multiset Card))
    (hl : s.hands.length = NUM_PLAYERS) :
    cardsOf s' = (createDeck : Multiset Card) ∧ s'.hands.length = NUM_PLAYERS := by
  unfold step at h
  split at h
  · cases hb : processBid s a with
    | error e => rw [hb] at h; cases h
    | ok s1 =>
      rw [hb] at h
      simp only [Except.map, Except.ok.injEq, Prod.mk.injEq] at h
      obtain ⟨h1, h2, h3⟩ := h
      subst h1
      obtain ⟨g1, g2⟩ := processBid_cards s a s1 hb
      obtain ⟨hb1, hb2⟩ := stepAfterBid_cards s1 σ
      exact ⟨hb1.trans (g1.trans hc), hb2.trans (g2.trans hl)⟩
  · cases hp : processPlay s a with
    | error e => rw [hp] at h; cases h
    | ok s1 =>
      rw [hp] at h
      simp only [Except.map, Except.ok.injEq] at h
      have h1 : (stepAfterPlay s1 σ d).1 = s' := by rw [h]
      rw [← h1]
      obtain ⟨g1, g2⟩ := processPlay_cards s a s1 hp
      exact stepAfterPlay_cards s1 σ d (g1.trans hc) hd (g2.trans hl)

theorem resetEnv_cards (rs seed : Nat) (d : List Card) :
    cardsOf (resetEnv rs seed d) = (d : Multiset Card)
      ∧ (resetEnv rs seed d).hands.length = NUM_PLAYERS := by
  unfold resetEnv
  refine ⟨?_, (dealCards_cards _ d).2⟩
  rw [(dealCards_cards _ d).1]
  show (d : Multiset Card) + (([] : List Card) : Multiset Card) = (d : Multiset Card)
  simp

theorem reachable_inv (s : GameState) (h : Reachable s) :
    cardsOf s = (createDeck : Multiset Card) ∧ s.hands.length = NUM_PLAYERS := by
  induction h with
  | init seed d hd =>
    exact ⟨(resetEnv_cards 0 seed d).1.trans (Multiset.coe_eq_coe.mpr hd),
      (resetEnv_cards 0 seed d).2⟩
  | again s hs seed d hd ih =>
    exact ⟨(resetEnv_cards s.round_starter seed d).1.trans (Multiset.coe_eq_coe.mpr hd),
      (resetEnv_cards s.round_starter seed d).2⟩
  | stepOk s hs σ d hd a s' σ' done hstep ih =>
    exact step_cards s σ d a s' σ' done hstep ih.1 (Multiset.coe_eq_coe.mpr hd) ih.2

/-- C5: in every reachable state of a game, the disjoint union of the
undealt deck remainder, all players' hands, the drawn trump card (if any)
and the cards played in the current round is exactly the multiset of the 60
unique cards of the full deck (which has no duplicates); every operation —
deal, bid, play, trick resolution, round close — preserves this. -/
theorem deck_partition_invariant (s : GameState) (h : Reachable s) :
    cardsOf s = (createDeck : Multiset Card)
      ∧ createDeck.Nodup ∧ createDeck.length = DECK_SIZE :=
  ⟨(reachable_inv s h).1, by decide, by decide⟩

/-- Witness for C5: the freshly reset game with the identity shuffle. -/
theorem deck_partition_invariant_witness :
    cardsOf (resetEnv 0 0 createDeck) = (createDeck : Multiset Card)
      ∧ createDeck.Nodup ∧ createDeck.length = DECK_SIZE :=
  deck_partition_invariant (resetEnv 0 0 createDeck)
    (Reachable.init 0 createDeck (List.Perm.refl createDeck))

end WizardEnv
